import Mathlib

/-!
Verification of the libsigrok acquisition core against its specification.

The development shallowly embeds the C sources:
  - src/hardware/common/dmm/rs9lcd.c            (RadioShack 22-812 DMM parser)
  - src/hardware/openbench-logic-sniffer/ols.c  (SUMP/OLS serial logic analyzer)
  - src/src/hardware/dslogic/dslogic.c          (DSLogic USB logic analyzer)

Machine integers are modelled as Nat with explicit reductions mod 2^w where
overflow can matter; C doubles in rs9lcd.c are modelled over the rationals
(the properties at issue are discrete multiplier/branch selections, which do
not depend on rounding); fallible results are Option.
-/

namespace Sigrok

/-! ## Shared libsigrok definitions (from src/unnamed/part_000, libsigrok.h) -/

/-- Status code SR_OK (libsigrok.h). -/
def SR_OK : Int := 0

/-- Status code SR_ERR (libsigrok.h). -/
def SR_ERR : Int := -1

/-- Status code SR_ERR_ARG (libsigrok.h). -/
def SR_ERR_ARG : Int := -3

/-- Status code SR_ERR_SAMPLERATE (libsigrok.h). -/
def SR_ERR_SAMPLERATE : Int := -5

/-- Device status SR_ST_INACTIVE (libsigrok.h enum starting at 10000). -/
def SR_ST_INACTIVE : Nat := 10002

/-- Device status SR_ST_ACTIVE (libsigrok.h enum starting at 10000). -/
def SR_ST_ACTIVE : Nat := 10003

/-- SR_MQ_VOLTAGE (libsigrok.h, enum starting at 10000). -/
def SR_MQ_VOLTAGE : Nat := 10000

/-- SR_MQ_CURRENT. -/
def SR_MQ_CURRENT : Nat := 10001

/-- SR_MQ_RESISTANCE. -/
def SR_MQ_RESISTANCE : Nat := 10002

/-- SR_MQ_CAPACITANCE. -/
def SR_MQ_CAPACITANCE : Nat := 10003

/-- SR_MQ_TEMPERATURE. -/
def SR_MQ_TEMPERATURE : Nat := 10004

/-- SR_MQ_FREQUENCY. -/
def SR_MQ_FREQUENCY : Nat := 10005

/-- SR_MQ_DUTY_CYCLE. -/
def SR_MQ_DUTY_CYCLE : Nat := 10006

/-- SR_MQ_CONTINUITY. -/
def SR_MQ_CONTINUITY : Nat := 10007

/-- SR_MQ_PULSE_WIDTH. -/
def SR_MQ_PULSE_WIDTH : Nat := 10008

/-- SR_MQ_POWER. -/
def SR_MQ_POWER : Nat := 10010

/-- SR_MQ_GAIN. -/
def SR_MQ_GAIN : Nat := 10011

/-- SR_UNIT_VOLT (libsigrok.h, enum starting at 10000). -/
def SR_UNIT_VOLT : Nat := 10000

/-- SR_UNIT_AMPERE. -/
def SR_UNIT_AMPERE : Nat := 10001

/-- SR_UNIT_OHM. -/
def SR_UNIT_OHM : Nat := 10002

/-- SR_UNIT_FARAD. -/
def SR_UNIT_FARAD : Nat := 10003

/-- SR_UNIT_CELSIUS. -/
def SR_UNIT_CELSIUS : Nat := 10005

/-- SR_UNIT_FAHRENHEIT. -/
def SR_UNIT_FAHRENHEIT : Nat := 10006

/-- SR_UNIT_HERTZ. -/
def SR_UNIT_HERTZ : Nat := 10007

/-- SR_UNIT_PERCENTAGE. -/
def SR_UNIT_PERCENTAGE : Nat := 10008

/-- SR_UNIT_BOOLEAN. -/
def SR_UNIT_BOOLEAN : Nat := 10009

/-- SR_UNIT_SECOND. -/
def SR_UNIT_SECOND : Nat := 10010

/-- SR_UNIT_DECIBEL_MW. -/
def SR_UNIT_DECIBEL_MW : Nat := 10012

/-- SR_UNIT_UNITLESS. -/
def SR_UNIT_UNITLESS : Nat := 10014

/-- SR_MQFLAG_AC (libsigrok.h). -/
def SR_MQFLAG_AC : Nat := 0x01

/-- SR_MQFLAG_DC. -/
def SR_MQFLAG_DC : Nat := 0x02

/-- SR_MQFLAG_DIODE. -/
def SR_MQFLAG_DIODE : Nat := 0x08

/-- SR_MQFLAG_HOLD. -/
def SR_MQFLAG_HOLD : Nat := 0x10

/-- SR_MQFLAG_MAX. -/
def SR_MQFLAG_MAX : Nat := 0x20

/-- SR_MQFLAG_MIN. -/
def SR_MQFLAG_MIN : Nat := 0x40

/-- SR_MQFLAG_AUTORANGE. -/
def SR_MQFLAG_AUTORANGE : Nat := 0x80

end Sigrok

namespace Rs9lcd

open Sigrok

/-! ## rs9lcd.c: RadioShack 22-812 9-byte LCD frame parser -/

/-- Indicatrix byte 1 bit IND1_HZ (rs9lcd.c). -/
def IND1_HZ : Nat := 0x80

/-- IND1_OHM. -/
def IND1_OHM : Nat := 0x40

/-- IND1_KILO. -/
def IND1_KILO : Nat := 0x20

/-- IND1_MEGA. -/
def IND1_MEGA : Nat := 0x10

/-- IND1_FARAD. -/
def IND1_FARAD : Nat := 0x08

/-- IND1_AMP. -/
def IND1_AMP : Nat := 0x04

/-- IND1_VOLT. -/
def IND1_VOLT : Nat := 0x02

/-- IND1_MILI. -/
def IND1_MILI : Nat := 0x01

/-- Indicatrix byte 2 bit IND2_MICRO (rs9lcd.c). -/
def IND2_MICRO : Nat := 0x80

/-- IND2_NANO. -/
def IND2_NANO : Nat := 0x40

/-- IND2_DBM. -/
def IND2_DBM : Nat := 0x20

/-- IND2_SEC. -/
def IND2_SEC : Nat := 0x10

/-- IND2_DUTY. -/
def IND2_DUTY : Nat := 0x08

/-- IND2_HFE. -/
def IND2_HFE : Nat := 0x04

/-- IND2_MIN. -/
def IND2_MIN : Nat := 0x01

/-- Info byte bit INFO_HOLD (rs9lcd.c). -/
def INFO_HOLD : Nat := 0x10

/-- INFO_NEG. -/
def INFO_NEG : Nat := 0x08

/-- INFO_AUTO. -/
def INFO_AUTO : Nat := 0x01

/-- DIG4_MAX: digit 4 carries the MAX flag in its decimal-point position. -/
def DIG4_MAX : Nat := 0x08

/-- DP_MASK: mask removing the decimal point from a digit byte. -/
def DP_MASK : Nat := 0x08

/-- Modelled from the spec: RS9LCD_PACKET_SIZE is defined in the serial-dmm
protocol header, which is not among the source files; the spec fixes the
rs9lcd frame at 9 bytes. -/
def RS9LCD_PACKET_SIZE : Nat := 9

/-- MODE_WIDTH (rs9lcd.c mode enum). -/
def MODE_WIDTH : Nat := 16

/-- MODE_VOLT_WIDTH. -/
def MODE_VOLT_WIDTH : Nat := 17

/-- MODE_AMP_WIDTH. -/
def MODE_AMP_WIDTH : Nat := 18

/-- MODE_TEMP. -/
def MODE_TEMP : Nat := 25

/-- MODE_INVALID: first invalid mode number (rs9lcd.c). -/
def MODE_INVALID : Nat := 26

/-- READ_ALL parse type (rs9lcd.c). -/
def READ_ALL : Nat := 0

/-- READ_TEMP parse type (rs9lcd.c). -/
def READ_TEMP : Nat := 1

/-- struct rs9lcd_packet: the 9 frame bytes in wire order
(mode, indicatrix1, indicatrix2, digit4, digit3, digit2, digit1, info,
checksum). Each field is one uint8_t. -/
structure Rs9lcdPacket where
  mode : Nat
  indicatrix1 : Nat
  indicatrix2 : Nat
  digit4 : Nat
  digit3 : Nat
  digit2 : Nat
  digit1 : Nat
  info : Nat
  checksum : Nat
deriving DecidableEq, Repr

/-- All nine packet fields are bytes. -/
def Rs9lcdPacket.Wf (p : Rs9lcdPacket) : Prop :=
  p.mode < 256 ∧ p.indicatrix1 < 256 ∧ p.indicatrix2 < 256 ∧ p.digit4 < 256 ∧
  p.digit3 < 256 ∧ p.digit2 < 256 ∧ p.digit1 < 256 ∧ p.info < 256 ∧
  p.checksum < 256

instance (p : Rs9lcdPacket) : Decidable p.Wf := by
  unfold Rs9lcdPacket.Wf; infer_instance

/-- The uint8 sum of the first eight frame bytes (raw[0..7] in
checksum_valid of rs9lcd.c before the constant is added). -/
def sumBytes (p : Rs9lcdPacket) : Nat :=
  p.mode + p.indicatrix1 + p.indicatrix2 + p.digit4 + p.digit3 + p.digit2 +
  p.digit1 + p.info

/-- checksum_valid (rs9lcd.c): sum raw[0..7] in uint8 arithmetic, add the
constant 57, subtract the checksum byte, accept iff the result is zero. -/
def checksum_valid (p : Rs9lcdPacket) : Bool :=
  let sum := sumBytes p % 256
  let sum := (sum + 57) % 256
  let sum := (sum + 256 - p.checksum % 256) % 256
  sum == 0

/-- Number of multiplier indicator bits set (first count in selection_good). -/
def multiplierCount (p : Rs9lcdPacket) : Nat :=
  (if p.indicatrix1 &&& IND1_KILO ≠ 0 then 1 else 0) +
  (if p.indicatrix1 &&& IND1_MEGA ≠ 0 then 1 else 0) +
  (if p.indicatrix1 &&& IND1_MILI ≠ 0 then 1 else 0) +
  (if p.indicatrix2 &&& IND2_MICRO ≠ 0 then 1 else 0) +
  (if p.indicatrix2 &&& IND2_NANO ≠ 0 then 1 else 0)

/-- Number of quantity indicator bits set (second count in selection_good). -/
def quantityCount (p : Rs9lcdPacket) : Nat :=
  (if p.indicatrix1 &&& IND1_HZ ≠ 0 then 1 else 0) +
  (if p.indicatrix1 &&& IND1_OHM ≠ 0 then 1 else 0) +
  (if p.indicatrix1 &&& IND1_FARAD ≠ 0 then 1 else 0) +
  (if p.indicatrix1 &&& IND1_AMP ≠ 0 then 1 else 0) +
  (if p.indicatrix1 &&& IND1_VOLT ≠ 0 then 1 else 0) +
  (if p.indicatrix2 &&& IND2_DBM ≠ 0 then 1 else 0) +
  (if p.indicatrix2 &&& IND2_SEC ≠ 0 then 1 else 0) +
  (if p.indicatrix2 &&& IND2_DUTY ≠ 0 then 1 else 0) +
  (if p.indicatrix2 &&& IND2_HFE ≠ 0 then 1 else 0)

/-- selection_good (rs9lcd.c): reject a frame with more than one multiplier
bit or more than one quantity bit. -/
def selection_good (p : Rs9lcdPacket) : Bool :=
  if multiplierCount p > 1 then false
  else if quantityCount p > 1 then false
  else true

/-- sr_rs9lcd_packet_valid (rs9lcd.c): mode in range, then checksum, then
selection bits; each failing check rejects the frame. -/
def sr_rs9lcd_packet_valid (p : Rs9lcdPacket) : Bool :=
  if ¬ p.mode < MODE_INVALID then false
  else if ¬ checksum_valid p then false
  else if ¬ selection_good p then false
  else true

/-- decode_digit (rs9lcd.c): strip the decimal point, then map the
7-segment pattern to 0..9; unknown patterns yield the 0xff sentinel. -/
def decode_digit (rawDigit : Nat) : Nat :=
  let d := rawDigit &&& 0xf7
  if d = 0x00 then 0
  else if d = 0xd7 then 0
  else if d = 0x50 then 1
  else if d = 0xb5 then 2
  else if d = 0xf1 then 3
  else if d = 0x72 then 4
  else if d = 0xe3 then 5
  else if d = 0xe7 then 6
  else if d = 0x51 then 7
  else if d = 0xf7 then 8
  else if d = 0xf3 then 9
  else 0xff

/-- The raw digit byte at loop index i of lcd_to_double: the source reads
`*(&(rs_packet->digit4) + i)`, i.e. digit4, digit3, digit2, digit1 for
i = 0, 1, 2, 3. -/
def digitAt (p : Rs9lcdPacket) (i : Nat) : Nat :=
  match i with
  | 0 => p.digit4
  | 1 => p.digit3
  | 2 => p.digit2
  | _ => p.digit1

/-- Accumulator of the digit loop of lcd_to_double: the running value, the
running decimal multiplier, whether a decimal point was crossed, and whether
an undecodable digit forced the NAN early exit. -/
structure LcdAcc where
  rawval : ℚ
  multiplier : ℚ
  dpReached : Bool
  nan : Bool
deriving Repr

/-- One iteration of the digit loop of lcd_to_double (rs9lcd.c). The C loop
breaks after setting rawval to NAN; that is carried here in the nan flag. -/
def lcdStep (p : Rs9lcdPacket) (acc : LcdAcc) (i : Nat) : LcdAcc :=
  if acc.nan then acc
  else
    let rawDigit := digitAt p i
    let digit := decode_digit rawDigit
    if digit = 0xff then { acc with nan := true }
    else
      let dp := acc.dpReached || (decide (i < 3) && decide (rawDigit &&& DP_MASK ≠ 0))
      let mult := if dp then acc.multiplier / 10 else acc.multiplier
      { rawval := acc.rawval * 10 + (digit : ℚ), multiplier := mult,
        dpReached := dp, nan := false }

/-- lcd_to_double (rs9lcd.c) over exact rationals; none models the NAN
result. The C local rawval is declared uninitialized and first used as
`rawval * 10 + digit`; it is modelled as starting from 0, the only reading
under which the published digit-reassembly semantics holds. The multiplier
chain is transcribed exactly as written in the source, including the test of
indicatrix1 (not indicatrix2) against the IND2_NANO bit. -/
def lcd_to_double (p : Rs9lcdPacket) (type : Nat) : Option ℚ :=
  let idxs : List Nat := if type = READ_TEMP then [3, 2, 1] else [3, 2, 1, 0]
  let acc := idxs.foldl (lcdStep p) ⟨0, 1, false, false⟩
  if acc.nan then none
  else
    let v := acc.rawval * acc.multiplier
    let v := if p.info &&& INFO_NEG ≠ 0 then -v else v
    let v :=
      if p.indicatrix1 &&& IND2_NANO ≠ 0 then v * (1 / 1000000000)
      else if p.indicatrix2 &&& IND2_MICRO ≠ 0 then v * (1 / 1000000)
      else if p.indicatrix1 &&& IND1_MILI ≠ 0 then v * (1 / 1000)
      else if p.indicatrix1 &&& IND1_KILO ≠ 0 then v * 1000
      else if p.indicatrix1 &&& IND1_MEGA ≠ 0 then v * 1000000
      else v
    some v

/-- is_celsius (rs9lcd.c): digit 4 shows the C character. -/
def is_celsius (p : Rs9lcdPacket) : Bool :=
  p.digit4 &&& 0xf7 == 0x87

/-- is_shortcirc (rs9lcd.c): digit 2 shows the h character. -/
def is_shortcirc (p : Rs9lcdPacket) : Bool :=
  p.digit2 &&& 0xf7 == 0x66

/-- is_logic_high (rs9lcd.c): digit 2 shows the H character. -/
def is_logic_high (p : Rs9lcdPacket) : Bool :=
  p.digit2 &&& 0xf7 == 0x76

/-- The sr_datafeed_analog fields written by sr_rs9lcd_parse; data models
the float stored through analog->data (none = not written). -/
structure AnalogOut where
  mq : Nat
  unit : Nat
  mqflags : Nat
  data : Option ℚ
deriving DecidableEq, Repr

/-- The MODE_TEMP case body of sr_rs9lcd_parse: temperature quantity,
re-decoded digits skipping the last one, Celsius or Fahrenheit from
digit 4. -/
def tempBranch (p : Rs9lcdPacket) (a : AnalogOut) : AnalogOut :=
  { a with mq := SR_MQ_TEMPERATURE,
           data := lcd_to_double p READ_TEMP,
           unit := if is_celsius p then SR_UNIT_CELSIUS else SR_UNIT_FAHRENHEIT }

/-- The mode switch of sr_rs9lcd_parse (rs9lcd.c). Fall-throughs of the C
switch are transcribed by continuing into the next case body; in
particular the MODE_WIDTH group has no break and falls through into
MODE_TEMP, exactly as in the source. -/
def parseModeSwitch (p : Rs9lcdPacket) (rawval : Option ℚ) (a : AnalogOut) :
    AnalogOut :=
  if p.mode = 0 then
    { a with mq := SR_MQ_VOLTAGE, unit := SR_UNIT_VOLT,
             mqflags := a.mqflags ||| SR_MQFLAG_DC }
  else if p.mode = 1 then
    { a with mq := SR_MQ_VOLTAGE, unit := SR_UNIT_VOLT,
             mqflags := a.mqflags ||| SR_MQFLAG_AC }
  else if p.mode = 2 ∨ p.mode = 3 ∨ p.mode = 4 then
    { a with mq := SR_MQ_CURRENT, unit := SR_UNIT_AMPERE,
             mqflags := a.mqflags ||| SR_MQFLAG_DC }
  else if p.mode = 5 ∨ p.mode = 6 ∨ p.mode = 7 then
    { a with mq := SR_MQ_CURRENT, unit := SR_UNIT_AMPERE,
             mqflags := a.mqflags ||| SR_MQFLAG_AC }
  else if p.mode = 8 then
    { a with mq := SR_MQ_RESISTANCE, unit := SR_UNIT_OHM }
  else if p.mode = 9 then
    { a with mq := SR_MQ_CAPACITANCE, unit := SR_UNIT_FARAD }
  else if p.mode = 20 then
    { a with mq := SR_MQ_CONTINUITY, unit := SR_UNIT_BOOLEAN,
             data := some (if is_shortcirc p then 1 else 0) }
  else if p.mode = 19 then
    { a with mq := SR_MQ_VOLTAGE, unit := SR_UNIT_VOLT,
             mqflags := (a.mqflags ||| SR_MQFLAG_DIODE) ||| SR_MQFLAG_DC }
  else if p.mode = 10 ∨ p.mode = 11 ∨ p.mode = 12 then
    { a with mq := SR_MQ_FREQUENCY, unit := SR_UNIT_HERTZ }
  else if p.mode = 22 then
    match rawval with
    | some _ => { a with mq := SR_MQ_VOLTAGE, unit := SR_UNIT_VOLT }
    | none => { a with mq := SR_MQ_VOLTAGE, unit := SR_UNIT_BOOLEAN,
                       data := some (if is_logic_high p then 1 else 0) }
  else if p.mode = 21 then
    { a with mq := SR_MQ_GAIN, unit := SR_UNIT_UNITLESS }
  else if p.mode = 13 ∨ p.mode = 14 ∨ p.mode = 15 then
    { a with mq := SR_MQ_DUTY_CYCLE, unit := SR_UNIT_PERCENTAGE }
  else if p.mode = MODE_WIDTH ∨ p.mode = MODE_VOLT_WIDTH ∨ p.mode = MODE_AMP_WIDTH then
    tempBranch p { a with mq := SR_MQ_PULSE_WIDTH, unit := SR_UNIT_SECOND }
  else if p.mode = MODE_TEMP then
    tempBranch p a
  else if p.mode = 23 then
    { a with mq := SR_MQ_POWER, unit := SR_UNIT_DECIBEL_MW,
             mqflags := a.mqflags ||| SR_MQFLAG_AC }
  else
    a

/-- sr_rs9lcd_parse (rs9lcd.c): decode the value, run the mode switch, then
apply the auxiliary HOLD, MAX, MIN and AUTORANGE flags. The result pairs
the final analog fields with the floatval output (none = NAN). -/
def sr_rs9lcd_parse (p : Rs9lcdPacket) (a0 : AnalogOut) : AnalogOut × Option ℚ :=
  let rawval := lcd_to_double p READ_ALL
  let a := parseModeSwitch p rawval a0
  let a := if p.info &&& INFO_HOLD ≠ 0 then
      { a with mqflags := a.mqflags ||| SR_MQFLAG_HOLD } else a
  let a := if p.digit4 &&& DIG4_MAX ≠ 0 then
      { a with mqflags := a.mqflags ||| SR_MQFLAG_MAX } else a
  let a := if p.indicatrix2 &&& IND2_MIN ≠ 0 then
      { a with mqflags := a.mqflags ||| SR_MQFLAG_MIN } else a
  let a := if p.info &&& INFO_AUTO ≠ 0 then
      { a with mqflags := a.mqflags ||| SR_MQFLAG_AUTORANGE } else a
  (a, rawval)

/-- checksum_valid accepts exactly the frames satisfying the published
checksum equation, for byte-valued fields. -/
theorem checksum_valid_iff (p : Rs9lcdPacket) (hw : p.Wf) :
    checksum_valid p = true ↔ (sumBytes p + 57) % 256 = p.checksum := by
  obtain ⟨h0, h1, h2, h3, h4, h5, h6, h7, h8⟩ := hw
  unfold checksum_valid
  simp only [beq_iff_eq]
  unfold sumBytes at *
  omega

/-- The early-return chain of sr_rs9lcd_packet_valid is the conjunction of
its three checks. -/
theorem valid_eq_checks (p : Rs9lcdPacket) :
    sr_rs9lcd_packet_valid p =
      (decide (p.mode < MODE_INVALID) && checksum_valid p && selection_good p) := by
  unfold sr_rs9lcd_packet_valid
  by_cases h1 : p.mode < MODE_INVALID <;> by_cases h2 : checksum_valid p <;>
    by_cases h3 : selection_good p <;> simp [h1, h2, h3]

/-- C3: for a 9-byte frame, acceptance by sr_rs9lcd_packet_valid implies the
checksum equation (sum of the first eight bytes plus 57, mod 256, equals the
ninth byte), and any frame violating the equation is rejected. -/
theorem rs9lcd_checksum_equation (p : Rs9lcdPacket) (hw : p.Wf) :
    (sr_rs9lcd_packet_valid p = true → (sumBytes p + 57) % 256 = p.checksum) ∧
    ((sumBytes p + 57) % 256 ≠ p.checksum → sr_rs9lcd_packet_valid p = false) := by
  have hiff := checksum_valid_iff p hw
  constructor
  · intro hv
    rw [valid_eq_checks] at hv
    simp only [Bool.and_eq_true] at hv
    exact hiff.mp hv.1.2
  · intro hne
    have hcv : checksum_valid p = false := by
      rcases Bool.eq_false_or_eq_true (checksum_valid p) with h | h
      · exact absurd (hiff.mp h) hne
      · exact h
    rw [valid_eq_checks, hcv]
    simp

/-- The all-zero frame with the matching checksum byte 57. -/
def rsChecksumPkt : Rs9lcdPacket := ⟨0, 0, 0, 0, 0, 0, 0, 0, 57⟩

/-- Witness for rs9lcd_checksum_equation at a concrete frame. -/
theorem rs9lcd_checksum_equation_witness :
    (sr_rs9lcd_packet_valid rsChecksumPkt = true →
      (sumBytes rsChecksumPkt + 57) % 256 = rsChecksumPkt.checksum) ∧
    ((sumBytes rsChecksumPkt + 57) % 256 ≠ rsChecksumPkt.checksum →
      sr_rs9lcd_packet_valid rsChecksumPkt = false) :=
  rs9lcd_checksum_equation rsChecksumPkt (by decide)

/-- C4: a frame with more than one multiplier bit or more than one quantity
bit among the indicator groups is rejected by sr_rs9lcd_packet_valid. -/
theorem rs9lcd_mutex_reject (p : Rs9lcdPacket)
    (h : 1 < multiplierCount p ∨ 1 < quantityCount p) :
    sr_rs9lcd_packet_valid p = false := by
  have hsel : selection_good p = false := by
    unfold selection_good
    rcases h with h | h
    · simp [h]
    · by_cases h1 : multiplierCount p > 1 <;> simp [h1, h]
  rw [valid_eq_checks, hsel]
  simp

/-- The spec scenario 4 frame: KILO and MEGA both lit in indicatrix1. -/
def rsMutexPkt : Rs9lcdPacket := ⟨0, 0x30, 0, 0, 0xd7, 0xd7, 0xd7, 0, 0⟩

/-- Witness for rs9lcd_mutex_reject: two multiplier bits force rejection. -/
theorem rs9lcd_mutex_reject_witness :
    1 < multiplierCount rsMutexPkt ∧ sr_rs9lcd_packet_valid rsMutexPkt = false :=
  ⟨by decide, rs9lcd_mutex_reject rsMutexPkt (Or.inl (by decide))⟩

/-- A valid capacitance frame reading 1 with only the IND2_NANO multiplier
lit (indicatrix2 bit 0x40), checksum 218 = (9 + 8 + 64 + 80 + 57) mod 256. -/
def rsNanoPkt : Rs9lcdPacket := ⟨9, 0x08, 0x40, 0x50, 0, 0, 0, 0, 218⟩

/-- C5: the nano branch of lcd_to_double tests indicatrix1 instead of
indicatrix2 against IND2_NANO, so a valid frame whose only multiplier bit
is IND2_NANO in indicatrix2 comes out UNSCALED: the parsed value is 1, not
the claimed 1 times 10^-9. (The micro, milli, kilo and mega branches read
the intended bytes.) -/
theorem rs9lcd_nano_multiplier_skipped :
    sr_rs9lcd_packet_valid rsNanoPkt = true ∧
    rsNanoPkt.indicatrix2 &&& IND2_NANO ≠ 0 ∧
    multiplierCount rsNanoPkt = 1 ∧
    lcd_to_double rsNanoPkt READ_ALL = some 1 ∧
    (1 : ℚ) ≠ 1 / 1000000000 := by
  refine ⟨by decide, by decide, by decide, ?_, by norm_num⟩
  simp +decide only [lcd_to_double, lcdStep, digitAt, decode_digit, rsNanoPkt,
    READ_ALL, READ_TEMP, DP_MASK, INFO_NEG, IND2_NANO, IND2_MICRO, IND1_MILI,
    IND1_KILO, IND1_MEGA, List.foldl_cons, List.foldl_nil, if_true, if_false]
  norm_num

/-- A valid MODE_WIDTH (16) frame, checksum 73 = 16 + 57. -/
def rsWidthPkt : Rs9lcdPacket := ⟨16, 0, 0, 0, 0, 0, 0, 0, 73⟩

/-- Zero-initialized analog output record, as handed in by the caller. -/
def rsAnalogZero : AnalogOut := ⟨0, 0, 0, none⟩

/-- C6: the MODE_WIDTH switch cases of sr_rs9lcd_parse have no break and
fall through into MODE_TEMP, so a valid pulse-width frame is reported as a
TEMPERATURE measurement in Fahrenheit with the digits re-decoded, not as
pulse width in seconds as the claim states. -/
theorem rs9lcd_width_falls_into_temp :
    sr_rs9lcd_packet_valid rsWidthPkt = true ∧
    rsWidthPkt.mode = MODE_WIDTH ∧
    (sr_rs9lcd_parse rsWidthPkt rsAnalogZero).1.mq = SR_MQ_TEMPERATURE ∧
    (sr_rs9lcd_parse rsWidthPkt rsAnalogZero).1.unit = SR_UNIT_FAHRENHEIT ∧
    (sr_rs9lcd_parse rsWidthPkt rsAnalogZero).1.data = some 0 ∧
    (sr_rs9lcd_parse rsWidthPkt rsAnalogZero).1.mq ≠ SR_MQ_PULSE_WIDTH ∧
    (sr_rs9lcd_parse rsWidthPkt rsAnalogZero).1.unit ≠ SR_UNIT_SECOND := by
  have hparse : (sr_rs9lcd_parse rsWidthPkt rsAnalogZero).1 =
      ⟨SR_MQ_TEMPERATURE, SR_UNIT_FAHRENHEIT, 0, some 0⟩ := by
    simp +decide only [sr_rs9lcd_parse, parseModeSwitch, tempBranch, lcd_to_double,
      lcdStep, digitAt, decode_digit, is_celsius, rsWidthPkt, rsAnalogZero,
      READ_ALL, READ_TEMP, DP_MASK, INFO_NEG, INFO_HOLD, INFO_AUTO, DIG4_MAX,
      IND2_MIN, IND2_NANO, IND2_MICRO, IND1_MILI, IND1_KILO, IND1_MEGA,
      MODE_WIDTH, MODE_VOLT_WIDTH, MODE_AMP_WIDTH, MODE_TEMP,
      List.foldl_cons, List.foldl_nil, if_true, if_false]
    norm_num
  refine ⟨by decide, by decide, ?_, ?_, ?_, ?_, ?_⟩ <;> rw [hparse] <;> decide

end Rs9lcd

namespace Ols

open Sigrok

/-! ## ols.c: Openbench Logic Sniffer serial engine

The header ols.h is not among the source files; the constants it defines
are modelled from the spec where they matter (flag-register bit positions,
MIN_NUM_SAMPLES) and the device clock rate CLOCK_RATE is abstracted as an
explicit argument. Everything else is transcribed from ols.c. -/

/-- Low end of the default supported samplerate range (ols.c, SR_HZ(10)). -/
def samplerates_low : Nat := 10

/-- High end of the default supported samplerate range (ols.c, SR_MHZ(200)). -/
def samplerates_high : Nat := 200000000

/-- NUM_PROBES: the probe_names table of ols.c lists probes 0..31. -/
def NUM_PROBES : Nat := 32

/-- Modelled from the spec: MIN_NUM_SAMPLES is defined in the absent ols.h;
the spec's boundary case fixes it at 4. -/
def MIN_NUM_SAMPLES : Nat := 4

/-- Modelled from the spec: FLAG_DEMUX is defined in the absent ols.h; the
spec lists the flag register as DEMUX, FILTER, RLE plus the channel-group
disable bits at positions 2..5, placing DEMUX at bit 0. -/
def FLAG_DEMUX : Nat := 0x01

/-- Modelled from the spec: FLAG_FILTER at bit 1 (absent ols.h; see
FLAG_DEMUX). -/
def FLAG_FILTER : Nat := 0x02

/-- Modelled from the spec: FLAG_RLE outside bit positions 0..5, which the
spec assigns to DEMUX, FILTER and the four group-disable bits (absent
ols.h). -/
def FLAG_RLE : Nat := 0x100

/-- 2^32, the modulus of the uint32_t divider field. -/
def U32 : Nat := 4294967296

/-- SR_DI_CUR_SAMPLERATE (libsigrok.h device-info enum starting at 10000:
HWOPTS, HWCAPS, NUM_PROBES, PROBE_NAMES, SAMPLERATES, TRIGGER_TYPES,
CUR_SAMPLERATE). -/
def SR_DI_CUR_SAMPLERATE : Nat := 10006

/-- SR_DI_HWCAPS. -/
def SR_DI_HWCAPS : Nat := 10001

/-- SR_DI_NUM_PROBES. -/
def SR_DI_NUM_PROBES : Nat := 10002

/-- SR_DI_PROBE_NAMES. -/
def SR_DI_PROBE_NAMES : Nat := 10003

/-- SR_DI_SAMPLERATES. -/
def SR_DI_SAMPLERATES : Nat := 10004

/-- SR_DI_TRIGGER_TYPES. -/
def SR_DI_TRIGGER_TYPES : Nat := 10005

/-- SR_HWCAP_SAMPLERATE (libsigrok.h, = 20000). -/
def SR_HWCAP_SAMPLERATE : Nat := 20000

/-- SR_HWCAP_CAPTURE_RATIO (libsigrok.h, = 20001). -/
def SR_HWCAP_CAPTURE_RATIO : Nat := 20001

/-- SR_HWCAP_RLE (libsigrok.h, = 20003). -/
def SR_HWCAP_RLE : Nat := 20003

/-- SR_HWCAP_LIMIT_SAMPLES (libsigrok.h, = 40001). -/
def SR_HWCAP_LIMIT_SAMPLES : Nat := 40001

/-- The fields of struct dev_context (ols.h/ols.c) that the embedded
operations read or write. sample and raw_sample_buf are byte arrays
modelled as functions from byte index to value; trigger_at is a C int. -/
structure OlsDevCtx where
  max_samplerate : Nat
  max_samples : Nat
  cur_samplerate : Nat
  cur_samplerate_divider : Nat
  limit_samples : Nat
  capture_ratio : Nat
  flag_reg : Nat
  probe_mask : Nat
  trigger_at : Int
  num_samples : Nat
  num_bytes : Nat
  rle_count : Nat
  sample : Nat → Nat
  raw_sample_buf : Nat → Nat

/-- set_samplerate (ols.c): range check against device metadata or the
default table, then program the divider; for rates above the clock enable
DEMUX and use the doubled clock. The divider is a uint32_t. -/
def set_samplerate (clockRate : Nat) (devc : OlsDevCtx) (samplerate : Nat) :
    Int × OlsDevCtx :=
  if devc.max_samplerate ≠ 0 ∧ samplerate > devc.max_samplerate then
    ( SR_ERR_SAMPLERATE, devc)
  else if devc.max_samplerate = 0 ∧
      (samplerate < samplerates_low ∨ samplerate > samplerates_high) then
    ( SR_ERR_SAMPLERATE, devc)
  else
    let devc :=
      if samplerate > clockRate then
        { devc with flag_reg := devc.flag_reg ||| FLAG_DEMUX,
                    cur_samplerate_divider := (clockRate * 2 / samplerate - 1) % U32 }
      else
        { devc with flag_reg := devc.flag_reg &&& 0xfffffffe,
                    cur_samplerate_divider := (clockRate / samplerate - 1) % U32 }
    let cur := clockRate / (devc.cur_samplerate_divider + 1)
    let cur := if devc.flag_reg &&& FLAG_DEMUX ≠ 0 then cur * 2 else cur
    ( SR_OK, { devc with cur_samplerate := cur })

/-- The values hw_info_get (ols.c) can hand back through its data pointer. -/
inductive InfoData where
  | hwcapsTable
  | numProbes (n : Nat)
  | probeNames
  | samplerateTable
  | triggerTypes
  | curSamplerate (rate : Nat)
deriving DecidableEq, Repr

/-- hw_info_get (ols.c): the info switch; SR_DI_CUR_SAMPLERATE requires a
device instance and exposes its cur_samplerate field. -/
def hw_info_get (info_id : Nat) (sdi : Option OlsDevCtx) : Int × Option InfoData :=
  if info_id = SR_DI_HWCAPS then ( SR_OK, some InfoData.hwcapsTable)
  else if info_id = SR_DI_NUM_PROBES then ( SR_OK, some (InfoData.numProbes 1))
  else if info_id = SR_DI_PROBE_NAMES then ( SR_OK, some InfoData.probeNames)
  else if info_id = SR_DI_SAMPLERATES then ( SR_OK, some InfoData.samplerateTable)
  else if info_id = SR_DI_TRIGGER_TYPES then ( SR_OK, some InfoData.triggerTypes)
  else if info_id = SR_DI_CUR_SAMPLERATE then
    match sdi with
    | some devc => ( SR_OK, some (InfoData.curSamplerate devc.cur_samplerate))
    | none => ( SR_ERR, none)
  else ( SR_ERR_ARG, none)

/-- hw_dev_config_set (ols.c): reject any request on a device that is not
SR_ST_ACTIVE, then dispatch on the capability. value models the uint64
read through the void pointer (and the GPOINTER_TO_INT test for RLE). -/
def hw_dev_config_set (clockRate : Nat) (status : Nat) (devc : OlsDevCtx)
    (hwcap : Nat) (value : Nat) : Int × OlsDevCtx :=
  if status ≠ SR_ST_ACTIVE then ( SR_ERR, devc)
  else if hwcap = SR_HWCAP_SAMPLERATE then
    set_samplerate clockRate devc value
  else if hwcap = SR_HWCAP_LIMIT_SAMPLES then
    if value < MIN_NUM_SAMPLES then ( SR_ERR, devc)
    else ( SR_OK, { devc with limit_samples := value })
  else if hwcap = SR_HWCAP_CAPTURE_RATIO then
    let devc := { devc with capture_ratio := value }
    if devc.capture_ratio > 100 then ( SR_ERR, { devc with capture_ratio := 0 })
    else ( SR_OK, devc)
  else if hwcap = SR_HWCAP_RLE then
    if value ≠ 0 then ( SR_OK, { devc with flag_reg := devc.flag_reg ||| FLAG_RLE })
    else ( SR_OK, devc)
  else ( SR_ERR, devc)

/-- The datafeed packets an OLS acquisition emits; logic carries its payload
bytes (length = the C length field, unitsize 4 throughout this driver). -/
inductive Packet where
  | header
  | metaLogic (num_probes : Nat) (samplerate : Nat)
  | logic (unitsize : Nat) (data : List Nat)
  | trigger
  | sessionEnd
deriving DecidableEq, Repr

/-- The channel-group count of receive_data (ols.c): the loop over
i = 0x20, 0x10, 0x08, 0x04 counting the groups whose disable bit in the
flag register is clear. -/
def num_channels_of (flag_reg : Nat) : Nat :=
  (if flag_reg &&& 0x20 = 0 then 1 else 0) +
  (if flag_reg &&& 0x10 = 0 then 1 else 0) +
  (if flag_reg &&& 0x08 = 0 then 1 else 0) +
  (if flag_reg &&& 0x04 = 0 then 1 else 0)

/-- One iteration of the channel-group expansion loop of receive_data:
tmp_sample[i] receives the next received byte when group i is enabled. -/
def expandStep (flag_reg : Nat) (sample : Nat → Nat) (acc : (Nat → Nat) × Nat)
    (i : Nat) : (Nat → Nat) × Nat :=
  if (flag_reg >>> 2) &&& (1 <<< i) = 0 then
    (Function.update acc.1 i (sample acc.2), acc.2 + 1)
  else acc

/-- The channel-group expansion of receive_data (ols.c): distribute the
received bytes of the enabled groups over a zeroed 4-byte sample. -/
def expand_sample (flag_reg : Nat) (sample : Nat → Nat) : Nat → Nat :=
  ([0, 1, 2, 3].foldl (expandStep flag_reg sample) (fun _ => 0, 0)).1

/-- memcpy of the 4 sample bytes to raw_sample_buf at a byte offset. -/
def write4 (buf : Nat → Nat) (off : Nat) (sample : Nat → Nat) : Nat → Nat :=
  fun idx => if off ≤ idx ∧ idx < off + 4 then sample (idx - off) else buf idx

/-- The replication loop of receive_data: rle_count + 1 copies of the
4-byte sample at consecutive offsets. -/
def writeCopies (buf : Nat → Nat) (off : Nat) (sample : Nat → Nat)
    (rle : Nat) : Nat → Nat :=
  (List.range (rle + 1)).foldl (fun b i => write4 b (off + i * 4) sample) buf

/-- The byte-arrival path of receive_data (ols.c): discard when the limit
is reached; otherwise accumulate the byte, and on a full sample either
record an RLE count (high bit of the most significant byte, RLE mode only)
or store the sample rle_count + 1 times, clamped to limit_samples, filling
the buffer from the end. -/
def receive_byte (devc : OlsDevCtx) (byte : Nat) : OlsDevCtx :=
  if devc.num_samples ≥ devc.limit_samples then devc
  else
    let devc := { devc with sample := Function.update devc.sample devc.num_bytes byte,
                            num_bytes := devc.num_bytes + 1 }
    if devc.num_bytes = num_channels_of devc.flag_reg then
      if devc.flag_reg &&& FLAG_RLE ≠ 0 ∧
          devc.sample (devc.num_bytes - 1) &&& 0x80 ≠ 0 then
        let sample := Function.update devc.sample (devc.num_bytes - 1)
          (devc.sample (devc.num_bytes - 1) &&& 0x7f)
        { devc with sample := sample,
                    rle_count := sample 0 + sample 1 * 256 + sample 2 * 65536 +
                      sample 3 * 16777216,
                    num_bytes := 0 }
      else
        let ns := devc.num_samples + devc.rle_count + 1
        let clamped := ns > devc.limit_samples
        let rle := if clamped then devc.rle_count - (ns - devc.limit_samples)
                   else devc.rle_count
        let ns := if clamped then devc.limit_samples else ns
        let sample := if num_channels_of devc.flag_reg < 4 then
            expand_sample devc.flag_reg devc.sample
          else devc.sample
        let off := (devc.limit_samples - ns) * 4
        { devc with num_samples := ns,
                    raw_sample_buf := writeCopies devc.raw_sample_buf off sample rle,
                    sample := fun _ => 0,
                    num_bytes := 0,
                    rle_count := 0 }
    else devc

/-- receive_data applied to a whole incoming byte sequence. -/
def receive_bytes (devc : OlsDevCtx) (bs : List Nat) : OlsDevCtx :=
  bs.foldl receive_byte devc

/-- A length-len slice of the sample buffer starting at a byte offset. -/
def bufSlice (buf : Nat → Nat) (start len : Nat) : List Nat :=
  (List.range len).map (fun k => buf (start + k))

/-- The timeout path of receive_data (ols.c): emit the buffered samples —
split around the trigger position when one was armed — followed by the End
packet sent by abort_acquisition. -/
def receive_timeout (devc : OlsDevCtx) : List Packet :=
  if devc.trigger_at ≠ -1 then
    (if devc.trigger_at > 0 then
      [Packet.logic 4 (bufSlice devc.raw_sample_buf
        ((devc.limit_samples - devc.num_samples) * 4) (devc.trigger_at.toNat * 4))]
    else []) ++
    [Packet.trigger,
     Packet.logic 4 (bufSlice devc.raw_sample_buf
       (devc.trigger_at.toNat * 4 + (devc.limit_samples - devc.num_samples) * 4)
       (devc.num_samples * 4 - devc.trigger_at.toNat * 4)),
     Packet.sessionEnd]
  else
    [Packet.logic 4 (bufSlice devc.raw_sample_buf
       ((devc.limit_samples - devc.num_samples) * 4) (devc.num_samples * 4)),
     Packet.sessionEnd]

/-- The channel-group mask computed by hw_dev_acquisition_start (ols.c):
bit i set when probe_mask covers group i. -/
def changrp_mask_of (probe_mask : Nat) : Nat :=
  (if probe_mask &&& 0xff ≠ 0 then 1 else 0) |||
  (if probe_mask &&& 0xff00 ≠ 0 then 2 else 0) |||
  (if probe_mask &&& 0xff0000 ≠ 0 then 4 else 0) |||
  (if probe_mask &&& 0xff000000 ≠ 0 then 8 else 0)

/-- The flag-register update of hw_dev_acquisition_start (ols.c):
`flag_reg |= ~(changrp_mask << 2) & 0x3c` (uint32 complement) followed by
`flag_reg |= FLAG_FILTER`. -/
def acquisition_flag_reg (flag0 : Nat) (changrp_mask : Nat) : Nat :=
  (flag0 ||| ((4294967295 - (changrp_mask <<< 2) % U32) &&& 0x3c)) ||| FLAG_FILTER

/-- The whole no-trigger acquisition pipeline of ols.c: the flag-register
and rle_count setup of hw_dev_acquisition_start, its Header and MetaLogic
packets, the malloc + memset(0x82) of the first receive_data call, the
per-byte receive path, and the timeout emission. -/
def ols_acquisition_stream (devc : OlsDevCtx) (bs : List Nat) : List Packet :=
  let devc := { devc with
    flag_reg := acquisition_flag_reg devc.flag_reg (changrp_mask_of devc.probe_mask),
    rle_count := 0 }
  let started := { devc with raw_sample_buf := fun _ => 0x82 }
  Packet.header :: Packet.metaLogic NUM_PROBES devc.cur_samplerate ::
    receive_timeout (receive_bytes started bs)

/-- Clearing FLAG_DEMUX through the uint32 complement mask really clears
it: the subsequent DEMUX test reads zero. -/
theorem land_demux_zero (x : Nat) : (x &&& 0xfffffffe) &&& FLAG_DEMUX = 0 := by
  rw [Nat.land_assoc]
  have h : (0xfffffffe &&& FLAG_DEMUX) = 0 := by decide
  rw [h]
  simp

/-- C2: for a requested rate r accepted with r at most the clock rate C,
set_samplerate returns SR_OK, stores divider = C / r - 1 (flooring
division), computes cur_samplerate = C / (C / r), and hw_info_get exposes
exactly that effective samplerate. -/
theorem ols_samplerate_effective (clockRate r : Nat) (devc : OlsDevCtx)
    (hC : clockRate < U32) (hr : 0 < r) (hrC : r ≤ clockRate)
    (hrange : (devc.max_samplerate ≠ 0 ∧ r ≤ devc.max_samplerate) ∨
      (devc.max_samplerate = 0 ∧ samplerates_low ≤ r ∧ r ≤ samplerates_high)) :
    (set_samplerate clockRate devc r).1 = SR_OK ∧
    (set_samplerate clockRate devc r).2.cur_samplerate_divider = clockRate / r - 1 ∧
    (set_samplerate clockRate devc r).2.cur_samplerate = clockRate / (clockRate / r) ∧
    (hw_info_get SR_DI_CUR_SAMPLERATE (some (set_samplerate clockRate devc r).2)).1 =
      SR_OK ∧
    (hw_info_get SR_DI_CUR_SAMPLERATE (some (set_samplerate clockRate devc r).2)).2 =
      some (InfoData.curSamplerate (clockRate / (clockRate / r))) := by
  have hdiv1 : 1 ≤ clockRate / r := (Nat.one_le_div_iff hr).mpr hrC
  have hdivU : clockRate / r - 1 < U32 :=
    lt_of_le_of_lt (le_trans (Nat.sub_le _ _) (Nat.div_le_self _ _)) hC
  have h1 : ¬(devc.max_samplerate ≠ 0 ∧ r > devc.max_samplerate) := by
    rcases hrange with ⟨_, h⟩ | ⟨h, _⟩ <;> omega
  have h2 : ¬(devc.max_samplerate = 0 ∧
      (r < samplerates_low ∨ r > samplerates_high)) := by
    rcases hrange with ⟨h, _⟩ | ⟨_, ha, hb⟩ <;> omega
  have h3 : ¬ r > clockRate := by omega
  have hset : set_samplerate clockRate devc r =
      ( SR_OK,
        { devc with
          flag_reg := devc.flag_reg &&& 0xfffffffe,
          cur_samplerate_divider := clockRate / r - 1,
          cur_samplerate := clockRate / (clockRate / r) }) := by
    unfold set_samplerate
    rw [if_neg h1, if_neg h2]
    simp only [if_neg h3, land_demux_zero, ne_eq, not_true_eq_false, if_false,
      Nat.mod_eq_of_lt hdivU, not_false_eq_true]
    have hs : clockRate / r - 1 + 1 = clockRate / r := by omega
    rw [hs]
  rw [hset]
  refine ⟨rfl, rfl, rfl, ?_, ?_⟩ <;>
    simp [hw_info_get, SR_DI_CUR_SAMPLERATE, SR_DI_HWCAPS, SR_DI_NUM_PROBES,
      SR_DI_PROBE_NAMES, SR_DI_SAMPLERATES, SR_DI_TRIGGER_TYPES]

/-- A freshly zeroed device context with no metadata-reported maximum
samplerate. -/
def olsDevZero : OlsDevCtx :=
  ⟨0, 0, 0, 0, 0, 0, 0, 0, -1, 0, 0, 0, fun _ => 0, fun _ => 0⟩

/-- Witness for ols_samplerate_effective: a 100 MHz clock asked for 30 MHz
stores divider 2 and reports 33333333 Hz. -/
theorem ols_samplerate_effective_witness :
    (set_samplerate 100000000 olsDevZero 30000000).1 = SR_OK ∧
    (set_samplerate 100000000 olsDevZero 30000000).2.cur_samplerate_divider =
      100000000 / 30000000 - 1 ∧
    (set_samplerate 100000000 olsDevZero 30000000).2.cur_samplerate =
      100000000 / (100000000 / 30000000) ∧
    (hw_info_get SR_DI_CUR_SAMPLERATE
      (some (set_samplerate 100000000 olsDevZero 30000000).2)).1 = SR_OK ∧
    (hw_info_get SR_DI_CUR_SAMPLERATE
      (some (set_samplerate 100000000 olsDevZero 30000000).2)).2 =
      some (InfoData.curSamplerate (100000000 / (100000000 / 30000000))) :=
  ols_samplerate_effective 100000000 30000000 olsDevZero (by decide) (by decide)
    (by decide) (Or.inr ⟨by decide, by decide, by decide⟩)

/-- C8: on an active device, a capture ratio above 100 is rejected with
SR_ERR and the stored ratio reset to 0; a ratio within 0..100 is stored
and acknowledged with SR_OK. (The ratio travels as a uint64, so every
representable out-of-range value is above 100.) -/
theorem ols_capture_ratio_range (clockRate : Nat) (devc : OlsDevCtx) (v : Nat) :
    (100 < v →
      hw_dev_config_set clockRate SR_ST_ACTIVE devc SR_HWCAP_CAPTURE_RATIO v =
        ( SR_ERR, { devc with capture_ratio := 0 })) ∧
    (v ≤ 100 →
      hw_dev_config_set clockRate SR_ST_ACTIVE devc SR_HWCAP_CAPTURE_RATIO v =
        ( SR_OK, { devc with capture_ratio := v })) := by
  constructor <;> intro h <;>
    simp [hw_dev_config_set, SR_ST_ACTIVE, SR_HWCAP_SAMPLERATE,
      SR_HWCAP_LIMIT_SAMPLES, SR_HWCAP_CAPTURE_RATIO, SR_HWCAP_RLE] <;>
    omega

/-- Witness for ols_capture_ratio_range at ratios 150 and 42. -/
theorem ols_capture_ratio_range_witness :
    hw_dev_config_set 100000000 SR_ST_ACTIVE olsDevZero SR_HWCAP_CAPTURE_RATIO 150 =
      ( SR_ERR, { olsDevZero with capture_ratio := 0 }) ∧
    hw_dev_config_set 100000000 SR_ST_ACTIVE olsDevZero SR_HWCAP_CAPTURE_RATIO 42 =
      ( SR_OK, { olsDevZero with capture_ratio := 42 }) :=
  ⟨(ols_capture_ratio_range 100000000 olsDevZero 150).1 (by decide),
   (ols_capture_ratio_range 100000000 olsDevZero 42).2 (by decide)⟩

/-- C10: hw_dev_config_set on a device whose status is not SR_ST_ACTIVE
returns SR_ERR before inspecting the capability and leaves the whole
device context unchanged. -/
theorem ols_config_set_inactive (clockRate status : Nat) (devc : OlsDevCtx)
    (hwcap value : Nat) (h : status ≠ SR_ST_ACTIVE) :
    hw_dev_config_set clockRate status devc hwcap value = ( SR_ERR, devc) := by
  unfold hw_dev_config_set
  rw [if_pos h]

/-- Witness for ols_config_set_inactive: an inactive device rejects a
samplerate request untouched. -/
theorem ols_config_set_inactive_witness :
    hw_dev_config_set 100000000 SR_ST_INACTIVE olsDevZero SR_HWCAP_SAMPLERATE
      1000000 = ( SR_ERR, olsDevZero) :=
  ols_config_set_inactive 100000000 SR_ST_INACTIVE olsDevZero SR_HWCAP_SAMPLERATE
    1000000 (by decide)

/-- Peeling the last copy off the replication loop. -/
theorem writeCopies_succ (buf : Nat → Nat) (off : Nat) (sample : Nat → Nat)
    (r : Nat) :
    writeCopies buf off sample (r + 1) =
      write4 (writeCopies buf off sample r) (off + (r + 1) * 4) sample := by
  unfold writeCopies
  rw [List.range_succ, List.foldl_append]
  simp

/-- The replication loop leaves every byte outside
[off, off + (rle + 1) * 4) unchanged. -/
theorem writeCopies_out (sample : Nat → Nat) (r : Nat) :
    ∀ (buf : Nat → Nat) (off idx : Nat), idx < off ∨ off + r * 4 + 4 ≤ idx →
      writeCopies buf off sample r idx = buf idx := by
  induction r with
  | zero =>
    intro buf off idx h
    unfold writeCopies
    rw [show List.range 1 = [0] from rfl]
    simp only [List.foldl_cons, List.foldl_nil, write4]
    rw [if_neg]
    omega
  | succ n ih =>
    intro buf off idx h
    rw [writeCopies_succ]
    unfold write4
    rw [if_neg (by omega)]
    exact ih buf off idx (by omega)

/-- A full-sample store moves num_samples to at most the limit and writes
only inside the limit_samples * 4 buffer. -/
theorem receive_byte_step (s : OlsDevCtx) (b : Nat)
    (h : s.num_samples ≤ s.limit_samples) :
    (receive_byte s b).num_samples ≤ s.limit_samples ∧
    (receive_byte s b).limit_samples = s.limit_samples ∧
    (∀ idx, s.limit_samples * 4 ≤ idx →
      (receive_byte s b).raw_sample_buf idx = s.raw_sample_buf idx) := by
  unfold receive_byte
  by_cases h1 : s.num_samples ≥ s.limit_samples
  · rw [if_pos h1]
    exact ⟨h, rfl, fun idx _ => rfl⟩
  · rw [if_neg h1]
    simp only []
    by_cases h2 : s.num_bytes + 1 = num_channels_of s.flag_reg
    · rw [if_pos h2]
      by_cases h3 : s.flag_reg &&& FLAG_RLE ≠ 0 ∧
          Function.update s.sample s.num_bytes b (s.num_bytes + 1 - 1) &&& 0x80 ≠ 0
      · rw [if_pos h3]
        exact ⟨h, rfl, fun idx _ => rfl⟩
      · rw [if_neg h3]
        by_cases h4 : s.num_samples + s.rle_count + 1 > s.limit_samples
        · rw [if_pos h4, if_pos h4]
          refine ⟨le_refl _, rfl, fun idx hidx => ?_⟩
          exact writeCopies_out _ _ _ _ idx (Or.inr (by omega))
        · rw [if_neg h4, if_neg h4]
          refine ⟨?_, rfl, fun idx hidx => ?_⟩
          · show s.num_samples + s.rle_count + 1 ≤ s.limit_samples
            omega
          · exact writeCopies_out _ _ _ _ idx (Or.inr (by omega))
    · rw [if_neg h2]
      exact ⟨h, rfl, fun idx _ => rfl⟩

/-- A byte arriving when the limit is already reached changes nothing. -/
theorem receive_byte_full (s : OlsDevCtx) (b : Nat)
    (h : s.limit_samples ≤ s.num_samples) : receive_byte s b = s := by
  unfold receive_byte
  rw [if_pos h]

/-- C7: over any incoming byte sequence num_samples never exceeds
limit_samples, nothing is ever written at or beyond byte limit_samples * 4
of the sample buffer, a full device discards further bytes, and a stored
sample whose RLE replication would overrun is clamped to exactly
limit_samples. -/
theorem ols_receive_bounded (s : OlsDevCtx) (bs : List Nat)
    (h : s.num_samples ≤ s.limit_samples) :
    (receive_bytes s bs).num_samples ≤ s.limit_samples ∧
    (receive_bytes s bs).limit_samples = s.limit_samples ∧
    (∀ idx, s.limit_samples * 4 ≤ idx →
      (receive_bytes s bs).raw_sample_buf idx = s.raw_sample_buf idx) ∧
    (s.limit_samples ≤ s.num_samples → receive_bytes s bs = s) ∧
    (∀ b, s.num_samples < s.limit_samples →
      s.num_bytes + 1 = num_channels_of s.flag_reg →
      ¬(s.flag_reg &&& FLAG_RLE ≠ 0 ∧ b &&& 0x80 ≠ 0) →
      s.limit_samples < s.num_samples + s.rle_count + 1 →
      (receive_byte s b).num_samples = s.limit_samples) := by
  have main : ∀ (bs : List Nat) (s : OlsDevCtx), s.num_samples ≤ s.limit_samples →
      (receive_bytes s bs).num_samples ≤ s.limit_samples ∧
      (receive_bytes s bs).limit_samples = s.limit_samples ∧
      (∀ idx, s.limit_samples * 4 ≤ idx →
        (receive_bytes s bs).raw_sample_buf idx = s.raw_sample_buf idx) := by
    intro bs
    induction bs with
    | nil => intro s hs; exact ⟨hs, rfl, fun idx _ => rfl⟩
    | cons b rest ih =>
      intro s hs
      have hstep := receive_byte_step s b hs
      have hrec := ih (receive_byte s b) (hstep.2.1 ▸ hstep.1)
      refine ⟨?_, ?_, ?_⟩
      · calc (receive_bytes (receive_byte s b) rest).num_samples
            ≤ (receive_byte s b).limit_samples := hrec.1
          _ = s.limit_samples := hstep.2.1
      · rw [show receive_bytes s (b :: rest) = receive_bytes (receive_byte s b) rest from rfl]
        rw [hrec.2.1, hstep.2.1]
      · intro idx hidx
        rw [show receive_bytes s (b :: rest) = receive_bytes (receive_byte s b) rest from rfl]
        rw [hrec.2.2 idx (hstep.2.1 ▸ hidx), hstep.2.2 idx hidx]
  have hdiscard : ∀ (bs : List Nat) (s : OlsDevCtx),
      s.limit_samples ≤ s.num_samples → receive_bytes s bs = s := by
    intro bs
    induction bs with
    | nil => intro s _; rfl
    | cons b rest ih =>
      intro s hs
      have hb := receive_byte_full s b hs
      show receive_bytes (receive_byte s b) rest = s
      rw [hb, ih s hs]
  refine ⟨(main bs s h).1, (main bs s h).2.1, (main bs s h).2.2, hdiscard bs s, ?_⟩
  intro b hlt hch hnotrle hover
  unfold receive_byte
  rw [if_neg (by omega)]
  simp only []
  rw [if_pos hch]
  rw [if_neg (by simpa [Function.update_same] using hnotrle)]
  rw [if_pos (by omega)]

/-- Witness for ols_receive_bounded: limit 4, RLE on, one group; the count
byte 0x85 sets rle_count = 5 and the following sample byte is clamped. -/
theorem ols_receive_bounded_witness :
    ((receive_bytes { olsDevZero with limit_samples := 4, flag_reg := 0x13a }
        [0x85, 0x2a]).num_samples ≤ 4 ∧
      (receive_bytes { olsDevZero with limit_samples := 4, flag_reg := 0x13a }
        [0x85, 0x2a]).limit_samples = 4 ∧
      (∀ idx, 4 * 4 ≤ idx →
        (receive_bytes { olsDevZero with limit_samples := 4, flag_reg := 0x13a }
          [0x85, 0x2a]).raw_sample_buf idx =
        ({ olsDevZero with limit_samples := 4, flag_reg := 0x13a } :
          OlsDevCtx).raw_sample_buf idx) ∧
      (4 ≤ (0 : Nat) →
        receive_bytes { olsDevZero with limit_samples := 4, flag_reg := 0x13a }
          [0x85, 0x2a] = { olsDevZero with limit_samples := 4, flag_reg := 0x13a }) ∧
      (∀ b, (0 : Nat) < 4 →
        0 + 1 = num_channels_of 0x13a →
        ¬(0x13a &&& FLAG_RLE ≠ 0 ∧ b &&& 0x80 ≠ 0) →
        4 < 0 + 0 + 1 →
        (receive_byte { olsDevZero with limit_samples := 4, flag_reg := 0x13a }
          b).num_samples = 4)) :=
  ols_receive_bounded { olsDevZero with limit_samples := 4, flag_reg := 0x13a }
    [0x85, 0x2a] (by decide)

/-- The expected OLS logic payload: each stored byte zero-extended to a
32-bit little-endian sample. -/
def interleaveZeros : List Nat → List Nat
  | [] => []
  | b :: rest => b :: 0 :: 0 :: 0 :: interleaveZeros rest

/-- Replicating once is a single 4-byte copy. -/
theorem writeCopies_zero (buf : Nat → Nat) (off : Nat) (sample : Nat → Nat) :
    writeCopies buf off sample 0 = write4 buf off sample := by
  unfold writeCopies
  rw [show List.range 1 = [0] from rfl]
  simp [write4]

/-- With only channel group 0 enabled (flag register 0x3a) the expansion
yields the received byte in position 0 and zeros elsewhere. -/
theorem expand_one_group (g : Nat → Nat) :
    expand_sample 0x3a g = Function.update (fun _ => 0) 0 (g 0) := by
  unfold expand_sample expandStep
  simp +decide only [List.foldl_cons, List.foldl_nil, ite_true, ite_false]

/-- One received byte in the single-group no-RLE configuration: a complete
sample is stored at the tail of the unfilled buffer region and the
transient state resets. -/
theorem receive_byte_one_group (s : OlsDevCtx) (b : Nat)
    (hflag : s.flag_reg = 0x3a) (hnb : s.num_bytes = 0) (hrle : s.rle_count = 0)
    (hlt : s.num_samples < s.limit_samples) :
    receive_byte s b =
      { s with
        num_samples := s.num_samples + 1,
        num_bytes := 0,
        rle_count := 0,
        sample := fun _ => 0,
        raw_sample_buf := write4 s.raw_sample_buf
          ((s.limit_samples - (s.num_samples + 1)) * 4)
          (Function.update (fun _ => 0) 0 b) } := by
  have hns : ¬ s.num_samples ≥ s.limit_samples := by omega
  have hch : num_channels_of 0x3a = 1 := by decide
  have hland : (0x3a : Nat) &&& 256 = 0 := by decide
  have hcl : ¬ s.limit_samples < s.num_samples + 1 := by omega
  simp [receive_byte, hflag, hnb, hrle, hch, hland, hns, hcl, FLAG_RLE,
    expand_one_group, writeCopies_zero, Function.update_same]

/-- receive_data over a byte list with one more byte at the end. -/
theorem receive_bytes_append (s : OlsDevCtx) (l : List Nat) (a : Nat) :
    receive_bytes s (l ++ [a]) = receive_byte (receive_bytes s l) a := by
  unfold receive_bytes
  rw [List.foldl_append]
  rfl

/-- Slices agree when the functions agree on the window. -/
theorem bufSlice_eq_of (f g : Nat → Nat) (start len : Nat)
    (h : ∀ k, k < len → f (start + k) = g (start + k)) :
    bufSlice f start len = bufSlice g start len := by
  unfold bufSlice
  apply List.map_congr_left
  intro a ha
  exact h a (List.mem_range.mp ha)

/-- Splitting the first 32-bit sample off a slice. -/
theorem bufSlice_four (buf : Nat → Nat) (a L : Nat) :
    bufSlice buf a (4 + L) =
      buf a :: buf (a + 1) :: buf (a + 2) :: buf (a + 3) ::
        bufSlice buf (a + 4) L := by
  unfold bufSlice
  rw [List.range_add]
  rw [show List.range 4 = [0, 1, 2, 3] from rfl]
  simp only [List.map_append, List.map_cons, List.map_nil, List.map_map]
  refine List.ext_getElem (by simp) ?_
  intro n h1 h2
  rcases n with _ | _ | _ | _ | n <;>
    simp [Function.comp, Nat.add_assoc, Nat.add_comm, Nat.add_left_comm]

/-- A write4 hit inside its 4-byte window reads the sample byte. -/
theorem write4_in (buf : Nat → Nat) (off : Nat) (sample : Nat → Nat) (m : Nat)
    (h : m < 4) : write4 buf off sample (off + m) = sample m := by
  unfold write4
  rw [if_pos ⟨Nat.le_add_right off m, by omega⟩]
  congr 1
  omega

/-- Processing a byte list in the single-group no-RLE configuration from an
empty state: the counters advance, the configuration fields persist, and
the filled tail of the buffer holds the bytes in reverse arrival order,
each zero-extended to 4 bytes. -/
theorem receive_bytes_one_group (s : OlsDevCtx)
    (hflag : s.flag_reg = 0x3a) (hnb : s.num_bytes = 0) (hrle : s.rle_count = 0)
    (hns : s.num_samples = 0) :
    ∀ (bs : List Nat), bs.length ≤ s.limit_samples →
      (receive_bytes s bs).num_samples = bs.length ∧
      (receive_bytes s bs).num_bytes = 0 ∧
      (receive_bytes s bs).rle_count = 0 ∧
      (receive_bytes s bs).flag_reg = 0x3a ∧
      (receive_bytes s bs).limit_samples = s.limit_samples ∧
      (receive_bytes s bs).trigger_at = s.trigger_at ∧
      (receive_bytes s bs).cur_samplerate = s.cur_samplerate ∧
      bufSlice (receive_bytes s bs).raw_sample_buf
        ((s.limit_samples - bs.length) * 4) (bs.length * 4) =
        interleaveZeros bs.reverse := by
  intro bs
  induction bs using List.reverseRecOn with
  | nil =>
    intro _
    refine ⟨hns, hnb, hrle, hflag, rfl, rfl, rfl, ?_⟩
    unfold bufSlice
    simp [interleaveZeros]
  | append_singleton l a ih =>
    intro hlen
    have hlena : (l ++ [a]).length = l.length + 1 := by simp
    have hlen' : l.length ≤ s.limit_samples := by omega
    obtain ⟨h1, h2, h3, h4, h5, h6, h7, h8⟩ := ih hlen'
    have hlt : (receive_bytes s l).num_samples < (receive_bytes s l).limit_samples := by
      rw [h1, h5]; omega
    have hstep := receive_byte_one_group (receive_bytes s l) a h4 h2 h3 hlt
    rw [receive_bytes_append s l a, hstep, hlena]
    rw [h1, h5]
    refine ⟨rfl, rfl, rfl, h4, rfl, h6, h7, ?_⟩
    have hoff4 : (s.limit_samples - (l.length + 1)) * 4 + 4 =
        (s.limit_samples - l.length) * 4 := by omega
    have hsplit : (l.length + 1) * 4 = 4 + l.length * 4 := by omega
    rw [hsplit, bufSlice_four]
    dsimp only
    have e0 : write4 (receive_bytes s l).raw_sample_buf
        ((s.limit_samples - (l.length + 1)) * 4) (Function.update (fun _ => 0) 0 a)
        ((s.limit_samples - (l.length + 1)) * 4) = a := by
      have := write4_in (receive_bytes s l).raw_sample_buf
        ((s.limit_samples - (l.length + 1)) * 4) (Function.update (fun _ => 0) 0 a)
        0 (by omega)
      simpa using this
    have etail : bufSlice (write4 (receive_bytes s l).raw_sample_buf
        ((s.limit_samples - (l.length + 1)) * 4) (Function.update (fun _ => 0) 0 a))
        ((s.limit_samples - (l.length + 1)) * 4 + 4) (l.length * 4) =
        interleaveZeros l.reverse := by
      rw [hoff4]
      rw [bufSlice_eq_of _ (receive_bytes s l).raw_sample_buf _ _
        (fun k hk => by unfold write4; rw [if_neg (by omega)])]
      exact h8
    rw [e0, write4_in _ _ _ 1 (by omega), write4_in _ _ _ 2 (by omega),
      write4_in _ _ _ 3 (by omega), etail]
    simp [interleaveZeros, Function.update]

/-- Each stored sample occupies 4 payload bytes. -/
theorem interleaveZeros_length (l : List Nat) :
    (interleaveZeros l).length = l.length * 4 := by
  induction l with
  | nil => rfl
  | cons b rest ih =>
    simp [interleaveZeros, ih]
    omega

/-- The j-th 32-bit sample of the payload is the j-th stored byte followed
by three zero bytes. -/
theorem interleaveZeros_sample (l : List Nat) :
    ∀ j (hj : j < l.length),
      ((interleaveZeros l).drop (4 * j)).take 4 = [l.get ⟨j, hj⟩, 0, 0, 0] := by
  induction l with
  | nil =>
    intro j hj
    simp at hj
  | cons b rest ih =>
    intro j hj
    cases j with
    | zero => simp [interleaveZeros]
    | succ m =>
      rw [show 4 * (m + 1) = 4 + 4 * m from by ring, ← List.drop_drop]
      rw [show (interleaveZeros (b :: rest)).drop 4 = interleaveZeros rest
        from by simp [interleaveZeros]]
      rw [ih m (by simpa using hj)]
      rfl

/-- C1: an OLS acquisition with no trigger, one enabled channel group
(probe mask 0xff), RLE off and limit_samples = |bs| emits exactly Header,
MetaLogic, one Logic packet and End; the Logic packet has unitsize 4,
carries 4·|bs| payload bytes, and its j-th 32-bit sample is the byte
received (|bs|-1-j)-th, zero-extended — the samples sit in reverse arrival
order with the three disabled channel-group bytes zero. -/
theorem ols_no_trigger_capture (devc : OlsDevCtx) (bs : List Nat)
    (hlim : bs.length = devc.limit_samples)
    (hflag : devc.flag_reg = 0) (htrig : devc.trigger_at = -1)
    (hpm : devc.probe_mask = 0xff)
    (hns : devc.num_samples = 0) (hnb : devc.num_bytes = 0) :
    ols_acquisition_stream devc bs =
      [Packet.header, Packet.metaLogic NUM_PROBES devc.cur_samplerate,
       Packet.logic 4 (interleaveZeros bs.reverse), Packet.sessionEnd] ∧
    (interleaveZeros bs.reverse).length = bs.length * 4 ∧
    (∀ j, (hj : j < bs.length) →
      ((interleaveZeros bs.reverse).drop (4 * j)).take 4 =
        [bs.get ⟨bs.length - 1 - j, by omega⟩, 0, 0, 0]) := by
  refine ⟨?_, ?_, ?_⟩
  · have hfr : acquisition_flag_reg devc.flag_reg (changrp_mask_of devc.probe_mask) =
        0x3a := by
      rw [hflag, hpm]
      decide
    unfold ols_acquisition_stream
    dsimp only
    rw [hfr]
    obtain ⟨h1, h2, h3, h4, h5, h6, h7, h8⟩ :=
      receive_bytes_one_group
        { devc with flag_reg := 0x3a, rle_count := 0, raw_sample_buf := fun _ => 0x82 }
        rfl hnb rfl hns bs (le_of_eq hlim)
    dsimp only at h8
    unfold receive_timeout
    rw [if_neg (by rw [h6]; dsimp only; rw [htrig]; simp)]
    rw [h1, h5]
    dsimp only
    have hstart : (devc.limit_samples - bs.length) * 4 = 0 := by omega
    rw [hstart] at h8 ⊢
    rw [h8]
  · simpa using interleaveZeros_length bs.reverse
  · intro j hj
    have hj' : j < bs.reverse.length := by simpa using hj
    rw [interleaveZeros_sample bs.reverse j hj']
    have := List.get_reverse' bs ⟨j, hj'⟩ (by simp at hj' ⊢; omega)
    rw [this]

/-- A 3-sample no-trigger capture configuration. -/
def olsCaptureDev : OlsDevCtx :=
  { olsDevZero with limit_samples := 3, cur_samplerate := 200000,
                    probe_mask := 0xff }

/-- Witness for ols_no_trigger_capture: three bytes come back as one
12-byte Logic packet in reverse order, zero-extended. -/
theorem ols_no_trigger_capture_witness :
    (ols_acquisition_stream olsCaptureDev [0xa0, 0xa1, 0xa2] =
      [Packet.header, Packet.metaLogic NUM_PROBES olsCaptureDev.cur_samplerate,
       Packet.logic 4 (interleaveZeros [0xa0, 0xa1, 0xa2].reverse),
       Packet.sessionEnd] ∧
    (interleaveZeros ([0xa0, 0xa1, 0xa2] : List Nat).reverse).length = 3 * 4 ∧
    (∀ j, (hj : j < ([0xa0, 0xa1, 0xa2] : List Nat).length) →
      ((interleaveZeros ([0xa0, 0xa1, 0xa2] : List Nat).reverse).drop (4 * j)).take 4 =
        [([0xa0, 0xa1, 0xa2] : List Nat).get
          ⟨([0xa0, 0xa1, 0xa2] : List Nat).length - 1 - j, by omega⟩, 0, 0, 0])) :=
  ols_no_trigger_capture olsCaptureDev [0xa0, 0xa1, 0xa2] (by decide) (by decide)
    (by decide) (by decide) (by decide) (by decide)

end Ols

namespace Dslogic

/-! ## dslogic.c: DSLogic FPGA configuration

The header dslogic.h is not among the source files. The operation-mode and
clock-edge selectors and the mode-word bit values it defines are modelled
from the spec, which lists the mode word as INT_TEST | EXT_TEST | LPB_TEST
| HALF_MODE | QUAR_MODE | STREAM_MODE | CLK_TYPE | CLK_EDGE | RLE_MODE plus
bit 0 armed by the trigger setup; the bits are modelled as distinct powers
of two away from bit 0. DS_MAX_LOGIC_DEPTH and DS_MAX_LOGIC_SAMPLERATE are
abstracted as arguments. The C expression
ceil(cur_samplerate * 1.0 / DS_MAX_LOGIC_SAMPLERATE) computes a ceiling in
double arithmetic; it is modelled as the exact natural-number ceiling,
which agrees with the double computation throughout the device's rate
range. -/

/-- Modelled from the spec: DS_OP_NORMAL (absent dslogic.h). -/
def DS_OP_NORMAL : Nat := 0

/-- Modelled from the spec: DS_OP_INTERNAL_TEST. -/
def DS_OP_INTERNAL_TEST : Nat := 1

/-- Modelled from the spec: DS_OP_EXTERNAL_TEST. -/
def DS_OP_EXTERNAL_TEST : Nat := 2

/-- Modelled from the spec: DS_OP_LOOPBACK_TEST. -/
def DS_OP_LOOPBACK_TEST : Nat := 3

/-- Modelled from the spec: DS_EDGE_RISING. -/
def DS_EDGE_RISING : Nat := 0

/-- Modelled from the spec: DS_EDGE_FALLING. -/
def DS_EDGE_FALLING : Nat := 1

/-- Modelled from the spec: DS_MODE_CLK_TYPE (absent dslogic.h; distinct
bit away from bit 0). -/
def DS_MODE_CLK_TYPE : Nat := 2

/-- Modelled from the spec: DS_MODE_CLK_EDGE. -/
def DS_MODE_CLK_EDGE : Nat := 4

/-- Modelled from the spec: DS_MODE_RLE_MODE, at bit 3. -/
def DS_MODE_RLE_MODE : Nat := 8

/-- Modelled from the spec: DS_MODE_HALF_MODE. -/
def DS_MODE_HALF_MODE : Nat := 32

/-- Modelled from the spec: DS_MODE_QUAR_MODE. -/
def DS_MODE_QUAR_MODE : Nat := 64

/-- Modelled from the spec: DS_MODE_STREAM_MODE. -/
def DS_MODE_STREAM_MODE : Nat := 4096

/-- Modelled from the spec: DS_MODE_LPB_TEST. -/
def DS_MODE_LPB_TEST : Nat := 8192

/-- Modelled from the spec: DS_MODE_EXT_TEST. -/
def DS_MODE_EXT_TEST : Nat := 16384

/-- Modelled from the spec: DS_MODE_INT_TEST. -/
def DS_MODE_INT_TEST : Nat := 32768

/-- Exact ceiling division, the real-arithmetic value of the C expression
ceil(a * 1.0 / b). -/
def natCeilDiv (a b : Nat) : Nat := (a + b - 1) / b

/-- The dev_context fields of dslogic.c read by the FPGA configuration. -/
structure DslogicDevCtx where
  mode : Nat
  cur_samplerate : Nat
  continuous_mode : Bool
  external_clock : Bool
  clock_edge : Nat
  limit_samples : Nat
deriving DecidableEq, Repr

/-- The test-mode selection opening dslogic_fpga_configure: v16 starts at
0x0000 or one of the three test-mode words. -/
def ds_mode_test_word (devc : DslogicDevCtx) : Nat :=
  if devc.mode = DS_OP_INTERNAL_TEST then DS_MODE_INT_TEST
  else if devc.mode = DS_OP_EXTERNAL_TEST then DS_MODE_EXT_TEST
  else if devc.mode = DS_OP_LOOPBACK_TEST then DS_MODE_LPB_TEST
  else 0

/-- HALF_MODE and QUAR_MODE engage at twice and four times the maximum
logic samplerate. -/
def ds_mode_rate_bits (maxRate : Nat) (devc : DslogicDevCtx) (v : Nat) : Nat :=
  if devc.cur_samplerate = maxRate * 2 then v ||| DS_MODE_HALF_MODE
  else if devc.cur_samplerate = maxRate * 4 then v ||| DS_MODE_QUAR_MODE
  else v

/-- STREAM_MODE engages in continuous mode. -/
def ds_mode_stream_bit (devc : DslogicDevCtx) (v : Nat) : Nat :=
  if devc.continuous_mode then v ||| DS_MODE_STREAM_MODE else v

/-- CLK_TYPE engages for an external clock, CLK_EDGE additionally for its
falling edge. -/
def ds_mode_clock_bits (devc : DslogicDevCtx) (v : Nat) : Nat :=
  if devc.external_clock then
    if devc.clock_edge = DS_EDGE_FALLING then
      (v ||| DS_MODE_CLK_TYPE) ||| DS_MODE_CLK_EDGE
    else v ||| DS_MODE_CLK_TYPE
  else v

/-- RLE_MODE engages for long non-continuous captures (dslogic.c lines
361..368). -/
def ds_mode_rle_bit (maxDepth maxRate : Nat) (devc : DslogicDevCtx)
    (v : Nat) : Nat :=
  if devc.limit_samples > maxDepth * natCeilDiv devc.cur_samplerate maxRate ∧
      ¬ devc.continuous_mode then
    v ||| DS_MODE_RLE_MODE
  else v

/-- dslogic_set_trigger ORs bit 0 into the mode word when the session has
a trigger. -/
def ds_mode_trig_bit (hasTrigger : Bool) (v : Nat) : Nat :=
  if hasTrigger then v ||| 1 else v

/-- The mode-word computation of dslogic_fpga_configure (dslogic.c),
including the trigger-arm bit 0 that dslogic_set_trigger ORs in when the
session has a trigger. maxDepth and maxRate stand for DS_MAX_LOGIC_DEPTH
and DS_MAX_LOGIC_SAMPLERATE. -/
def dslogic_fpga_mode_word (maxDepth maxRate : Nat) (devc : DslogicDevCtx)
    (hasTrigger : Bool) : Nat :=
  ds_mode_trig_bit hasTrigger
    (ds_mode_rle_bit maxDepth maxRate devc
      (ds_mode_clock_bits devc
        (ds_mode_stream_bit devc
          (ds_mode_rate_bits maxRate devc (ds_mode_test_word devc)))))

/-- The test-mode words leave bit 3 clear. -/
theorem testBit3_test_word (devc : DslogicDevCtx) :
    (ds_mode_test_word devc).testBit 3 = false := by
  unfold ds_mode_test_word
  split_ifs <;> decide

/-- HALF/QUAR leave bit 3 untouched. -/
theorem testBit3_rate_bits (maxRate : Nat) (devc : DslogicDevCtx) (v : Nat) :
    (ds_mode_rate_bits maxRate devc v).testBit 3 = v.testBit 3 := by
  unfold ds_mode_rate_bits
  split_ifs <;>
    simp [Nat.testBit_or, DS_MODE_HALF_MODE, DS_MODE_QUAR_MODE,
      show Nat.testBit 32 3 = false from by decide,
      show Nat.testBit 64 3 = false from by decide]

/-- STREAM leaves bit 3 untouched. -/
theorem testBit3_stream_bit (devc : DslogicDevCtx) (v : Nat) :
    (ds_mode_stream_bit devc v).testBit 3 = v.testBit 3 := by
  unfold ds_mode_stream_bit
  split_ifs <;>
    simp [Nat.testBit_or, DS_MODE_STREAM_MODE,
      show Nat.testBit 4096 3 = false from by decide]

/-- CLK_TYPE/CLK_EDGE leave bit 3 untouched. -/
theorem testBit3_clock_bits (devc : DslogicDevCtx) (v : Nat) :
    (ds_mode_clock_bits devc v).testBit 3 = v.testBit 3 := by
  unfold ds_mode_clock_bits
  split_ifs <;>
    simp [Nat.testBit_or, DS_MODE_CLK_TYPE, DS_MODE_CLK_EDGE,
      show Nat.testBit 2 3 = false from by decide,
      show Nat.testBit 4 3 = false from by decide]

/-- The trigger-arm bit leaves bit 3 untouched. -/
theorem testBit3_trig_bit (hasTrigger : Bool) (v : Nat) :
    (ds_mode_trig_bit hasTrigger v).testBit 3 = v.testBit 3 := by
  unfold ds_mode_trig_bit
  split_ifs <;>
    simp [Nat.testBit_or, show Nat.testBit 1 3 = false from by decide]

/-- C9: DS_MODE_RLE_MODE is set in the configured FPGA mode word exactly
when continuous mode is off and limit_samples exceeds
DS_MAX_LOGIC_DEPTH * ceil(cur_samplerate / DS_MAX_LOGIC_SAMPLERATE); in
particular limit_samples = DS_MAX_LOGIC_DEPTH + 1 at
cur_samplerate = DS_MAX_LOGIC_SAMPLERATE with continuous off sets it. -/
theorem dslogic_rle_mode (maxDepth maxRate : Nat) (devc : DslogicDevCtx)
    (hasTrigger : Bool) (hrate : 0 < maxRate) :
    ((dslogic_fpga_mode_word maxDepth maxRate devc hasTrigger).testBit 3 = true ↔
      devc.continuous_mode = false ∧
      maxDepth * natCeilDiv devc.cur_samplerate maxRate < devc.limit_samples) ∧
    (devc.limit_samples = maxDepth + 1 → devc.cur_samplerate = maxRate →
      devc.continuous_mode = false →
      (dslogic_fpga_mode_word maxDepth maxRate devc hasTrigger).testBit 3 = true) := by
  have hceil : natCeilDiv maxRate maxRate = 1 := by
    unfold natCeilDiv
    have ha : 1 * maxRate ≤ maxRate + maxRate - 1 := by omega
    have hb : maxRate + maxRate - 1 < (1 + 1) * maxRate := by omega
    exact Nat.div_eq_of_lt_le ha hb
  have hiff :
      (dslogic_fpga_mode_word maxDepth maxRate devc hasTrigger).testBit 3 = true ↔
        devc.continuous_mode = false ∧
        maxDepth * natCeilDiv devc.cur_samplerate maxRate < devc.limit_samples := by
    unfold dslogic_fpga_mode_word
    rw [testBit3_trig_bit]
    unfold ds_mode_rle_bit
    split_ifs with h
    · simp only [Nat.testBit_or]
      rw [testBit3_clock_bits, testBit3_stream_bit, testBit3_rate_bits,
        testBit3_test_word]
      simp only [Bool.false_or]
      constructor
      · intro _
        exact ⟨by simpa using h.2, h.1⟩
      · intro _
        decide
    · rw [testBit3_clock_bits, testBit3_stream_bit, testBit3_rate_bits,
        testBit3_test_word]
      constructor
      · intro hfalse
        exact absurd hfalse (by simp)
      · intro hc
        exact absurd ⟨hc.2, by simp [hc.1]⟩ h
  refine ⟨hiff, ?_⟩
  intro h1 h2 h3
  rw [hiff, h2, hceil, h1]
  exact ⟨h3, by omega⟩

/-- Witness for dslogic_rle_mode: the representative values 16 M depth and
100 MHz max rate, at the spec boundary limit = depth + 1. -/
theorem dslogic_rle_mode_witness :
    (((dslogic_fpga_mode_word 16000000 100000000
        ⟨DS_OP_NORMAL, 100000000, false, false, DS_EDGE_RISING, 16000001⟩
        false).testBit 3 = true ↔
      (false = false ∧
        16000000 * natCeilDiv 100000000 100000000 < 16000001)) ∧
    ((16000001 : Nat) = 16000000 + 1 → (100000000 : Nat) = 100000000 →
      false = false →
      (dslogic_fpga_mode_word 16000000 100000000
        ⟨DS_OP_NORMAL, 100000000, false, false, DS_EDGE_RISING, 16000001⟩
        false).testBit 3 = true)) :=
  dslogic_rle_mode 16000000 100000000
    ⟨DS_OP_NORMAL, 100000000, false, false, DS_EDGE_RISING, 16000001⟩
    false (by decide)

end Dslogic
